import Mathlib

/-!
Shallow embedding of the batched remote-scrape-and-persist pipeline of the
Minddrift repository (scrape_installer/enf_scraper_apify.py,
scrape_installer/enf_detail_scraper.py, scrape_installer/enf_rescrape_wecp.py,
vibecode_junior_1/enf_rescrape_missing.py), together with theorems settling
the frozen claims about its specification.

Python strings are modelled as Lean `String` (with helper functions over
`List Char`); Python dicts with string keys as association lists (assignment
overwrites in place, preserving insertion order, as in CPython); Python
exceptions as explicit `Option`/outcome branches.
-/

namespace Minddrift

/-- The default whitespace set of Python's `str.strip()` (ASCII part; the
scripts only ever strip ASCII whitespace). -/
def isPyWS (c : Char) : Bool :=
  c = ' ' || c = '\t' || c = '\n' || c = '\r' || c = Char.ofNat 11 || c = Char.ofNat 12

/-- `str.strip()`: remove leading and trailing whitespace. -/
def pyStripL (l : List Char) : List Char :=
  ((l.dropWhile isPyWS).reverse.dropWhile isPyWS).reverse

/-- `str.lower()` (ASCII; the URLs handled by the scripts are ASCII). -/
def pyLower (l : List Char) : List Char :=
  l.map Char.toLower

def httpChars : List Char := "http://".data
def httpsChars : List Char := "https://".data
def wwwChars : List Char := "www.".data

/-- Model of `urllib.parse.urlparse(url).netloc` for a `url` that starts with
`http://` or `https://` (the only shape `normalize_domain` ever parses): the
netloc is the substring after the `//`, up to the first `/`, `?` or `#`.
`none` models the `ValueError` that `urlsplit` raises on mismatched IPv6
brackets, which `normalize_domain` catches. -/
def urlparseNetloc (url : List Char) : Option (List Char) :=
  let rest := if httpChars.isPrefixOf url then url.drop 7 else url.drop 8
  let netloc := rest.takeWhile (fun c => c != '/' && c != '?' && c != '#')
  if (netloc.contains '[') != (netloc.contains ']') then none else some netloc

/-- `normalize_domain` (identical in enf_scraper_apify.py:33-49,
enf_detail_scraper.py:37-53 and enf_rescrape_missing.py:28-43), over the
character list of the input:
```
if not url or url.strip() == "": return ""
url = url.strip()
if not url.startswith(("http://", "https://")): url = "https://" + url
try:
    parsed = urlparse(url)
    domain = parsed.netloc.lower()
    if domain.startswith("www."): domain = domain[4:]
    if ":" in domain: domain = domain.split(":")[0]
    return domain
except Exception:
    return ""
```
-/
def normalize_domain_chars (url : List Char) : List Char :=
  if url = [] ∨ pyStripL url = [] then []
  else
    let url := pyStripL url
    let url :=
      if httpChars.isPrefixOf url || httpsChars.isPrefixOf url then url
      else httpsChars ++ url
    match urlparseNetloc url with
    | none => []
    | some netloc =>
      let domain := pyLower netloc
      let domain := if wwwChars.isPrefixOf domain then domain.drop 4 else domain
      let domain := if domain.contains ':' then domain.takeWhile (fun c => c != ':') else domain
      domain

/-- `normalize_domain` on Lean strings. -/
def normalize_domain (url : String) : String :=
  ⟨normalize_domain_chars url.data⟩

example : normalize_domain "" = "" := by decide
example : normalize_domain "HTTP://WWW.Example.com:8080/x" = "http" := by decide
example : normalize_domain "http://www.Example.com:8080/x" = "example.com" := by decide
example : normalize_domain "https://www.FOO.com/bar" = "foo.com" := by decide
example : normalize_domain "foo.com" = "foo.com" := by decide

/-! ## Record Store data model

A CSV record is a dict from field name to string value.  The pipeline only
ever reads/writes the twelve base columns, and `row.get(key, default)` /
`csv.DictReader` render an unseen field as the empty string, so a record is
modelled as a structure whose fields all default to `""`.  (`source_page` is
stored as a string in the CSV.) -/

structure Entry where
  company_name : String := ""
  area : String := ""
  battery_storage : String := ""
  detail_url : String := ""
  source_page : String := ""
  website_url_primary : String := ""
  website_domain_primary : String := ""
  phone : String := ""
  address : String := ""
  website_count : String := ""
  website_urls_all : String := ""
  website_domains_all : String := ""
deriving DecidableEq

/-- Per submitted URL, the fields the remote extraction job discovered:
`result.get("websites", [])`, `result.get("phone", "")`,
`result.get("address", "")`. -/
structure ExtractionResult where
  websites : List String := []
  phone : String := ""
  address : String := ""
deriving DecidableEq

/-- `"|".join(ws)` -/
def pipeJoin (ws : List String) : String :=
  String.intercalate "|" ws

/-- The per-record body of `update_entries` (enf_rescrape_missing.py:233-255):
websites only if discovered (primary = first), count and pipe-joined lists
only when more than one; phone and address fill-only-if-empty. -/
def update_entry_rescrape (entry : Entry) (r : ExtractionResult) : Entry :=
  let entry :=
    if r.websites ≠ [] then
      let e := { entry with
        website_url_primary := r.websites.headD ""
        website_domain_primary := normalize_domain (r.websites.headD "") }
      if 1 < r.websites.length then
        { e with
          website_count := toString r.websites.length
          website_urls_all := pipeJoin r.websites
          website_domains_all := pipeJoin (r.websites.map normalize_domain) }
      else e
    else entry
  let entry :=
    if r.phone ≠ "" ∧ entry.phone = "" then { entry with phone := r.phone } else entry
  if r.address ≠ "" ∧ entry.address = "" then { entry with address := r.address } else entry

/-- The per-record body of `update_entries_with_results`
(enf_detail_scraper.py:354-383): when no website was discovered the primary
fields are assigned the empty string, and phone/address are assigned
unconditionally. -/
def update_entry_detail (entry : Entry) (r : ExtractionResult) : Entry :=
  let entry :=
    if r.websites ≠ [] then
      let e := { entry with
        website_url_primary := r.websites.headD ""
        website_domain_primary := normalize_domain (r.websites.headD "") }
      if 1 < r.websites.length then
        { e with
          website_count := toString r.websites.length
          website_urls_all := pipeJoin r.websites
          website_domains_all := pipeJoin (r.websites.map normalize_domain) }
      else e
    else
      { entry with website_url_primary := "", website_domain_primary := "" }
  { entry with phone := r.phone, address := r.address }

/-! ## Remote Extraction Client -/

/-- One item of the remote job's result dataset.  `detail_url` and
`entryIndex` are the keys round-tripped through the job
(`item.get("detail_url", "")`, `item.get("entryIndex")`); the remaining
fields are the extraction payload. -/
structure ApifyItem where
  detail_url : String := ""
  entryIndex : Option Nat := none
  websites : List String := []
  phone : String := ""
  address : String := ""
deriving DecidableEq

def ApifyItem.result (it : ApifyItem) : ExtractionResult :=
  ⟨it.websites, it.phone, it.address⟩

/-- Python dict assignment `m[k] = v`: overwrite in place if the key is
present, else append (CPython dicts preserve insertion order). -/
def dictInsert {κ ν : Type} [DecidableEq κ] (m : List (κ × ν)) (k : κ) (v : ν) :
    List (κ × ν) :=
  if m.any (fun p => p.1 = k) then m.map (fun p => if p.1 = k then (k, v) else p)
  else m ++ [(k, v)]

/-- How the environment resolved one chunk's remote job.  `callRaised` models
the `client.actor(...).call` raising; `finished s ds f` models the polling
loop observing terminal status `s`, the run having default-dataset id `ds`,
and the dataset fetch outcome `f` (`raised` = `iterate_items` raising, which
the code catches). -/
inductive FetchOutcome where
  | raised : FetchOutcome
  | ok : List ApifyItem → FetchOutcome
deriving DecidableEq

inductive BatchOutcome where
  | callRaised : BatchOutcome
  | finished : String → Option String → FetchOutcome → BatchOutcome
deriving DecidableEq

/-- The claim's failure modes: a client/network error, or a non-success
terminal state. -/
def BatchOutcome.isFailure : BatchOutcome → Prop
  | .callRaised => True
  | .finished s _ _ => s = "FAILED" ∨ s = "ABORTED" ∨ s = "TIMED-OUT"

/-- `run_apify_batch` (enf_detail_scraper.py:132-351), result-collection part:
results are keyed by `detail_url` and collected only when the terminal status
is `SUCCEEDED`, a dataset id is present, and fetching the items does not
raise; every failure path falls through to the initially empty dict. -/
def run_apify_batch_detail (o : BatchOutcome) : List (String × ApifyItem) :=
  match o with
  | .callRaised => []
  | .finished status dsid fetch =>
    if status = "SUCCEEDED" then
      match dsid, fetch with
      | some _, .ok items =>
        items.foldl
          (fun m it => if it.detail_url ≠ "" then dictInsert m it.detail_url it else m) []
      | _, _ => []
    else []

/-- `run_apify_batch` (enf_rescrape_missing.py:85-230), result-collection
part: identical error structure, but keyed by `entryIndex`
(`if idx is not None`). -/
def run_apify_batch_rescrape (o : BatchOutcome) : List (Nat × ApifyItem) :=
  match o with
  | .callRaised => []
  | .finished status dsid fetch =>
    if status = "SUCCEEDED" then
      match dsid, fetch with
      | some _, .ok items =>
        items.foldl
          (fun m it => match it.entryIndex with
            | some idx => dictInsert m idx it
            | none => m) []
      | _, _ => []
    else []

/-! ## Result Merger, list level -/

/-- `update_entries` (enf_rescrape_missing.py:233-255): for each
`(idx, item)` of the results dict, update `entries[idx]` in place; count the
records whose result discovered at least one website.  (`idx` always comes
from `enumerate(entries)` via the job's `userData`, so it is in range;
`List.set` is a no-op out of range where Python would raise.) -/
def update_entries (entries : List Entry) (results : List (Nat × ApifyItem)) :
    List Entry × Nat :=
  results.foldl
    (fun acc p =>
      let e := acc.1.getD p.1 {}
      (acc.1.set p.1 (update_entry_rescrape e p.2.result),
       acc.2 + if p.2.websites ≠ [] then 1 else 0))
    (entries, 0)

/-- `results.get(entry.detail_url, {})` followed by the three
`.get(..., default)` reads: a record with no result merges the empty
extraction result. -/
def resultFor (results : List (String × ApifyItem)) (url : String) : ExtractionResult :=
  match results.lookup url with
  | some it => it.result
  | none => {}

/-- `update_entries_with_results` (enf_detail_scraper.py:354-383): for each
`i` in `range(start_idx, min(end_idx, len(entries)))`, merge the result
looked up by the record's `detail_url` (records without a result merge the
empty result); count the records whose result discovered a website. -/
def update_entries_with_results (entries : List Entry)
    (results : List (String × ApifyItem)) (startIdx endIdx : Nat) :
    List Entry × Nat :=
  let stop := min endIdx entries.length
  (entries.mapIdx (fun i e =>
      if startIdx ≤ i ∧ i < stop then update_entry_detail e (resultFor results e.detail_url)
      else e),
   ((List.range entries.length).filter (fun i =>
      decide (startIdx ≤ i) && decide (i < stop) &&
        !((resultFor results ((entries.getD i {}).detail_url)).websites.isEmpty))).length)

/-! ## Batch Planner -/

/-- `math.ceil(n / B)` for natural `n`, `B`. -/
def ceil_div (n B : Nat) : Nat := (n + B - 1) / B

/-- The chunking pattern shared by the three `main` loops
(enf_rescrape_missing.py:290-298, enf_rescrape_wecp.py:119-128,
enf_detail_scraper.py:468-480): `ceil(N/B)` batches, batch `i` being the
slice `items[i*B : i*B + B]`. -/
def planChunks {α : Type} (B : Nat) (l : List α) : List (List α) :=
  (List.range (ceil_div l.length B)).map (fun i => (l.drop (i * B)).take B)

example : planChunks 2 [1, 2, 3, 4, 5] = [[1, 2], [3, 4], [5]] := by decide
example : planChunks 3 ([] : List Nat) = [] := by decide
example : planChunks 3 [1, 2, 3] = [[1, 2, 3]] := by decide

/-! ## URL preparation -/

/-- One element of the `startUrls` list submitted to the actor, with the
`userData` the scripts attach. -/
structure StartUrl where
  url : String := ""
  entryIndex : Nat := 0
  company_name : String := ""
deriving DecidableEq

/-- `prepare_urls` (enf_rescrape_missing.py:71-82): for each index, submit
the record's `detail_url` unless it is missing/empty, in which case the
record is skipped. -/
def prepare_urls (entries : List Entry) (indices : List Nat) : List StartUrl :=
  indices.filterMap (fun idx =>
    let entry := entries.getD idx {}
    if entry.detail_url ≠ "" then some ⟨entry.detail_url, idx, ""⟩ else none)

/-- `prepare_urls_for_batch` (enf_detail_scraper.py:114-129): same skip rule
over `range(start_idx, min(end_idx, len(entries)))`; `userData` also carries
the company name. -/
def prepare_urls_for_batch (entries : List Entry) (startIdx endIdx : Nat) :
    List StartUrl :=
  (List.range' startIdx (min endIdx entries.length - startIdx)).filterMap (fun i =>
    let entry := entries.getD i {}
    if entry.detail_url ≠ "" then some ⟨entry.detail_url, i, entry.company_name⟩ else none)

/-! ## Record Store header (`get_fieldnames`, enf_detail_scraper.py:79-98)

Records on disk are dicts with arbitrary keys, so for the header computation
an entry is a raw association list.  `existing_cols` is a Python `set`;
its iteration order is an arbitrary enumeration of its elements (CPython
sets are unordered; with string keys the order depends on the per-process
hash seed), so the model takes that enumeration as a parameter constrained
by `isSetEnumOf`. -/

def base_cols : List String :=
  ["company_name", "area", "battery_storage", "detail_url", "source_page",
   "website_url_primary", "website_domain_primary", "phone", "address",
   "website_count", "website_urls_all", "website_domains_all"]

/-- `existingEnum` is a legal iteration order of the set
`existing_cols = ⋃ entry.keys()`: duplicate-free and containing exactly the
keys occurring in the entries. -/
def isSetEnumOf (existingEnum : List String)
    (entries : List (List (String × String))) : Prop :=
  existingEnum.Nodup ∧
  (∀ c ∈ existingEnum, ∃ e ∈ entries, c ∈ e.map Prod.fst) ∧
  (∀ e ∈ entries, ∀ k ∈ e.map Prod.fst, k ∈ existingEnum)

instance (existingEnum : List String) (entries : List (List (String × String))) :
    Decidable (isSetEnumOf existingEnum entries) := by
  unfold isSetEnumOf; infer_instance

/-- `get_fieldnames`: start from
`[c for c in base_cols if c in existing_cols or c in base_cols]` (the second
disjunct makes the filter keep everything), then append each set element not
already present, in set-iteration order. -/
def get_fieldnames (existingEnum : List String) : List String :=
  let fieldnames := base_cols.filter
    (fun c => existingEnum.contains c || base_cols.contains c)
  existingEnum.foldl (fun fns col => if col ∈ fns then fns else fns ++ [col]) fieldnames

/-! ## Listing-scrape CSV save (`save_to_csv`, enf_scraper_apify.py:207-235) -/

/-- The deduplication loop of `save_to_csv`, with the running `seen` set of
non-empty detail URLs made explicit:
```
for inst in installers:
    url = inst.get("detail_url", "")
    if url and url not in seen:
        seen.add(url); unique.append(inst)
    elif not url:
        unique.append(inst)
```
-/
def dedupGo (seen : List String) : List Entry → List Entry
  | [] => []
  | inst :: rest =>
    let url := inst.detail_url
    if url ≠ "" ∧ url ∉ seen then inst :: dedupGo (url :: seen) rest
    else if url = "" then inst :: dedupGo seen rest
    else dedupGo seen rest

/-- The record list `save_to_csv` actually writes (`unique`). -/
def save_to_csv_unique (installers : List Entry) : List Entry :=
  dedupGo [] installers

/-- Modelled from the spec's words, for comparison with `save_to_csv_unique`:
keep the record at position `i` iff its `detail_url` is empty or no earlier
record carries the same `detail_url` (first occurrence of each distinct
non-empty URL), preserving input order. -/
def dedup_spec (l : List Entry) : List Entry :=
  (List.range l.length).filterMap (fun i =>
    let inst := l.getD i {}
    if inst.detail_url = "" ∨ inst.detail_url ∉ (l.take i).map Entry.detail_url then
      some inst
    else none)

example :
    save_to_csv_unique
      [{ detail_url := "a" }, { detail_url := "" }, { detail_url := "a", area := "X" },
       { detail_url := "b" }, { detail_url := "" }] =
      [{ detail_url := "a" }, { detail_url := "" }, { detail_url := "b" },
       { detail_url := "" }] := by decide

/-! ## Main batch loop (enf_detail_scraper.py:466-497)

The loop body is deterministic given how the environment resolves each
chunk's remote job, so the loop is modelled as a fold over the batch
indices, with an `oracle` assigning each batch its `BatchOutcome`.  A batch
with no submittable URLs is skipped (`continue`); otherwise its results are
merged and the store is persisted (persistence itself is the identity on the
in-memory store). -/
def mainLoop_detail (entries0 : List Entry) (B : Nat)
    (oracle : Nat → BatchOutcome) : List Entry × Nat :=
  (List.range (ceil_div entries0.length B)).foldl
    (fun acc bi =>
      let startIdx := bi * B
      let urls := prepare_urls_for_batch acc.1 startIdx (startIdx + B)
      if urls = [] then acc
      else
        let results := run_apify_batch_detail (oracle bi)
        let upd := update_entries_with_results acc.1 results startIdx (startIdx + B)
        (upd.1, acc.2 + upd.2))
    (entries0, 0)

/-! ## The wecp re-scrape batch body (enf_rescrape_wecp.py:147-190)

This variant has no polling loop and no status check: `client.actor(...).call`
waits for the run and returns the run object whatever its terminal status
(FAILED / ABORTED / TIMED-OUT included — the apify client raises only on
transport/client errors), the status is merely printed, and the run's
dataset is fetched and applied unconditionally.  The whole body sits in one
`try: ... except ...: continue`, so a raised exception skips the batch. -/

/-- One item of the wecp page function's dataset:
`{url, website, allWecpLinks}`. -/
structure WecpItem where
  url : String := ""
  website : String := ""
  allWecpLinks : String := ""
deriving DecidableEq

inductive WecpFetch where
  | raised : WecpFetch
  | ok : List WecpItem → WecpFetch
deriving DecidableEq

/-- How the environment resolved one wecp batch: the actor call raised, or it
returned a run with terminal status `s`, default-dataset id (`none` models a
run object without the key, whose subscript raises `KeyError`), and a dataset
fetch outcome. -/
inductive WecpOutcome where
  | callRaised : WecpOutcome
  | finished : String → Option String → WecpFetch → WecpOutcome
deriving DecidableEq

/-- `urlparse(url).netloc` for the strings `extract_domain` receives: URLs
with an explicit `http://`/`https://` scheme (the wecp page function only
pushes hrefs starting with `http`), or strings with neither scheme nor
leading `//`, whose netloc is empty. -/
def urlparseNetlocGeneral (url : List Char) : Option (List Char) :=
  if httpChars.isPrefixOf url || httpsChars.isPrefixOf url then urlparseNetloc url
  else some []

/-- `extract_domain` (enf_rescrape_wecp.py:48-59): netloc of the URL with a
leading `www.` stripped — unlike `normalize_domain` it neither assumes a
scheme, nor lower-cases, nor strips a `:port`; `""` on falsy input or a
parse `ValueError` (caught by its bare `except`). -/
def extract_domain_chars (url : List Char) : List Char :=
  if url = [] then []
  else
    match urlparseNetlocGeneral url with
    | none => []
    | some netloc =>
      if wwwChars.isPrefixOf netloc then netloc.drop 4 else netloc

def extract_domain (url : String) : String :=
  ⟨extract_domain_chars url.data⟩

/-- Result collection of the wecp batch body (enf_rescrape_wecp.py:147-161):
`url_to_result = {r['url']: r for r in results}` is built from the run's
dataset with *no* check of the terminal status; `none` models the exception
path (`except ...: continue`) — a raised call, a run object without
`defaultDatasetId`, or a raised dataset fetch. -/
def wecp_collect_results (o : WecpOutcome) : Option (List (String × WecpItem)) :=
  match o with
  | .callRaised => none
  | .finished _ dsid fetch =>
    match dsid, fetch with
    | some _, .ok items => some (items.foldl (fun m r => dictInsert m r.url r) [])
    | _, _ => none

/-- Row update of the wecp batch body (enf_rescrape_wecp.py:164-176): for
each submitted `(index, url)` pair whose url has a result with a non-empty
stripped `website`, overwrite the row's primary website fields. -/
def wecp_update_rows (rows : List Entry) (batch : List (Nat × String))
    (urlToResult : List (String × WecpItem)) : List Entry :=
  batch.foldl (fun rows p =>
    match urlToResult.lookup p.2 with
    | none => rows
    | some r =>
      let website : String := ⟨pyStripL r.website.data⟩
      if website ≠ "" then
        rows.set p.1 { rows.getD p.1 {} with
          website_url_primary := website
          website_domain_primary := extract_domain website }
      else rows) rows

/-- One iteration of the wecp batch loop: an exception skips the batch
(`continue`, rows unchanged); otherwise the fetched results are applied to
the rows regardless of the run's terminal status. -/
def wecp_batch_step (rows : List Entry) (batch : List (Nat × String))
    (o : WecpOutcome) : List Entry :=
  match wecp_collect_results o with
  | none => rows
  | some urlToResult => wecp_update_rows rows batch urlToResult

/-! ## Theorems -/

/-- C2 (counterexample): the spec's second Domain Normalizer test vector
fails on the code.  The scheme check `url.startswith(("http://", "https://"))`
is case-sensitive, so `"HTTP://WWW.Example.com:8080/x"` is re-prefixed with
`https://`, `urlparse` then reports netloc `"HTTP:"`, and the function
returns `"http"`, not `"example.com"`. -/
theorem normalize_domain_uppercase_counterexample :
    normalize_domain "HTTP://WWW.Example.com:8080/x" = "http" ∧
    normalize_domain "HTTP://WWW.Example.com:8080/x" ≠ "example.com" := by
  decide

/-- C2 (amended): `normalize_domain("")` is `""`; the uppercase-scheme vector
returns `"http"` because the scheme check is case-sensitive; the same vector
with a lowercase scheme returns `"example.com"` (leading `www.` stripped,
trailing `:port` stripped, lower-cased). -/
theorem normalize_domain_test_vectors :
    normalize_domain "" = "" ∧
    normalize_domain "HTTP://WWW.Example.com:8080/x" = "http" ∧
    normalize_domain "http://www.Example.com:8080/x" = "example.com" := by
  decide

/-- C1 (counterexample): under `update_entries_with_results`
(enf_detail_scraper.py:354-383), a record whose chunk result discovered no
website has its present `website_url_primary` replaced by the empty string. -/
theorem merge_empty_websites_overwrites :
    (((update_entries_with_results
        [{ detail_url := "https://d.example/p",
           website_url_primary := "https://keep.example.com",
           website_domain_primary := "keep.example.com" }]
        [("https://d.example/p", { detail_url := "https://d.example/p" })]
        0 1).1.getD 0 {}).website_url_primary = "" ∧
      (({ detail_url := "https://d.example/p",
          website_url_primary := "https://keep.example.com",
          website_domain_primary := "keep.example.com" } : Entry).website_url_primary
        ≠ "")) := by
  decide

/-- C1 (amended): when the extraction result has no discovered website, the
re-scrape merge (`update_entries`, enf_rescrape_missing.py:233-255) leaves
`website_url_primary` and `website_domain_primary` unchanged, but the detail
scraper merge (`update_entries_with_results`, enf_detail_scraper.py:354-383)
overwrites both with the empty string. -/
theorem merge_empty_websites_frame (e : Entry) (r : ExtractionResult)
    (h : r.websites = []) :
    (update_entry_rescrape e r).website_url_primary = e.website_url_primary ∧
    (update_entry_rescrape e r).website_domain_primary = e.website_domain_primary ∧
    (update_entry_detail e r).website_url_primary = "" ∧
    (update_entry_detail e r).website_domain_primary = "" := by
  unfold update_entry_rescrape update_entry_detail
  simp only [h]
  split_ifs <;> simp_all

/-- Witness for `merge_empty_websites_frame` at a concrete record and
result. -/
theorem merge_empty_websites_frame_witness :
    (update_entry_rescrape { website_url_primary := "https://keep.example.com" } {}
      ).website_url_primary = "https://keep.example.com" := by
  have h := merge_empty_websites_frame
    { website_url_primary := "https://keep.example.com" } {} (by decide)
  exact h.1

/-- C3 (counterexample): `update_entries_with_results`
(enf_detail_scraper.py:380-381) assigns `entry["phone"] = phone`
unconditionally, so merging a result whose phone is empty erases a stored
phone. -/
theorem merge_phone_overwrites :
    (((update_entries_with_results
        [{ detail_url := "https://d.example/p", phone := "555-1234" }]
        [("https://d.example/p", { detail_url := "https://d.example/p" })]
        0 1).1.getD 0 {}).phone = "" ∧
      ("" : String) ≠ "555-1234") := by
  decide

/-- C3 (amended): the re-scrape merge (`update_entries`,
enf_rescrape_missing.py:250-253) is fill-only-if-empty for phone and
address — an existing non-empty value survives any result; the detail
scraper merge (`update_entries_with_results`, enf_detail_scraper.py:380-381)
instead assigns the result's phone and address unconditionally. -/
theorem merge_phone_address_semantics (e : Entry) (r : ExtractionResult) :
    (e.phone ≠ "" → (update_entry_rescrape e r).phone = e.phone) ∧
    (e.address ≠ "" → (update_entry_rescrape e r).address = e.address) ∧
    (update_entry_detail e r).phone = r.phone ∧
    (update_entry_detail e r).address = r.address := by
  by_cases hw : r.websites = [] <;> by_cases hl : 1 < r.websites.length <;>
    by_cases hp : r.phone = "" <;> by_cases hep : e.phone = "" <;>
      by_cases ha : r.address = "" <;> by_cases hea : e.address = "" <;>
        simp_all [update_entry_rescrape, update_entry_detail, apply_ite]

/-- Witness for `merge_phone_address_semantics` at a concrete record and
result. -/
theorem merge_phone_address_semantics_witness :
    (update_entry_rescrape { phone := "555-1234", address := "1 Main St" }
        { phone := "555-9999", address := "" }).phone = "555-1234" ∧
    (update_entry_rescrape { phone := "555-1234", address := "1 Main St" }
        { phone := "555-9999", address := "" }).address = "1 Main St" := by
  have h := merge_phone_address_semantics
    { phone := "555-1234", address := "1 Main St" } { phone := "555-9999", address := "" }
  exact ⟨h.1 (by decide), h.2.1 (by decide)⟩

/-- C6: both merge variants are idempotent per record: merging the same
`ExtractionResult` twice equals merging it once.  In particular the
pipe-joined `website_urls_all` / `website_domains_all` fields are rebuilt
from the result's website list each time (`"|".join(websites)`), never
appended to, so repeated merges accumulate no duplicates. -/
theorem merge_idempotent (e : Entry) (r : ExtractionResult) :
    update_entry_rescrape (update_entry_rescrape e r) r = update_entry_rescrape e r ∧
    update_entry_detail (update_entry_detail e r) r = update_entry_detail e r := by
  by_cases hw : r.websites = [] <;> by_cases hl : 1 < r.websites.length <;>
    by_cases hp : r.phone = "" <;> by_cases hep : e.phone = "" <;>
      by_cases ha : r.address = "" <;> by_cases hea : e.address = "" <;>
        simp_all [update_entry_rescrape, update_entry_detail, apply_ite]

/-- C8: `normalize_domain` maps every input whose characters are all
whitespace (the empty string included) to `""`.  Totality holds by
construction: the function's single `try` block returns `""` on any
exception, and every other path returns a string. -/
theorem normalize_domain_whitespace (s : String) (h : ∀ c ∈ s.data, isPyWS c) :
    normalize_domain s = "" := by
  have hdrop : s.data.dropWhile isPyWS = [] :=
    List.dropWhile_eq_nil_iff.mpr h
  have hstrip : pyStripL s.data = [] := by
    unfold pyStripL
    simp [hdrop]
  unfold normalize_domain normalize_domain_chars
  simp [hstrip]

/-- Witness for `normalize_domain_whitespace` on a concrete all-whitespace
string. -/
theorem normalize_domain_whitespace_witness :
    normalize_domain "  \t " = "" :=
  normalize_domain_whitespace "  \t " (by decide)

/-- Membership characterization of `prepare_urls`: the submissions are
exactly the selected indices whose record has a non-empty `detail_url`. -/
theorem mem_prepare_urls (entries : List Entry) (indices : List Nat) (s : StartUrl) :
    s ∈ prepare_urls entries indices ↔
      ∃ idx ∈ indices, (entries.getD idx {}).detail_url ≠ "" ∧
        s = ⟨(entries.getD idx {}).detail_url, idx, ""⟩ := by
  simp only [prepare_urls, List.mem_filterMap]
  constructor
  · rintro ⟨j, hj, hf⟩
    by_cases h : (entries.getD j {}).detail_url = ""
    · rw [if_neg (not_not_intro h)] at hf; cases hf
    · rw [if_pos h] at hf
      exact ⟨j, hj, h, (Option.some.inj hf).symm⟩
  · rintro ⟨j, hj, h, rfl⟩
    exact ⟨j, hj, by rw [if_pos h]⟩

/-- Membership characterization of `prepare_urls_for_batch`. -/
theorem mem_prepare_urls_for_batch (entries : List Entry) (startIdx endIdx : Nat)
    (s : StartUrl) :
    s ∈ prepare_urls_for_batch entries startIdx endIdx ↔
      ∃ i, startIdx ≤ i ∧ i < min endIdx entries.length ∧
        (entries.getD i {}).detail_url ≠ "" ∧
        s = ⟨(entries.getD i {}).detail_url, i, (entries.getD i {}).company_name⟩ := by
  simp only [prepare_urls_for_batch, List.mem_filterMap, List.mem_range'_1]
  constructor
  · rintro ⟨j, hj, hf⟩
    by_cases h : (entries.getD j {}).detail_url = ""
    · rw [if_neg (not_not_intro h)] at hf; cases hf
    · rw [if_pos h] at hf
      exact ⟨j, by omega, by omega, h, (Option.some.inj hf).symm⟩
  · rintro ⟨j, hlo, hhi, h, rfl⟩
    exact ⟨j, by omega, by rw [if_pos h]⟩

/-- C9: in both URL-preparation functions, a record whose `detail_url` is
missing or empty contributes no submission (no output element carries its
index), every other selected record is submitted, and nothing aborts (both
functions are total by construction — the skip is an `if`, not an
exception). -/
theorem prepare_urls_skip_empty (entries : List Entry) (indices : List Nat)
    (startIdx endIdx : Nat) :
    (∀ idx, (entries.getD idx {}).detail_url = "" →
      ∀ s ∈ prepare_urls entries indices, s.entryIndex ≠ idx) ∧
    (∀ idx ∈ indices, (entries.getD idx {}).detail_url ≠ "" →
      (⟨(entries.getD idx {}).detail_url, idx, ""⟩ : StartUrl) ∈
        prepare_urls entries indices) ∧
    (∀ i, (entries.getD i {}).detail_url = "" →
      ∀ s ∈ prepare_urls_for_batch entries startIdx endIdx, s.entryIndex ≠ i) ∧
    (∀ i, startIdx ≤ i → i < min endIdx entries.length →
      (entries.getD i {}).detail_url ≠ "" →
      (⟨(entries.getD i {}).detail_url, i, (entries.getD i {}).company_name⟩ : StartUrl) ∈
        prepare_urls_for_batch entries startIdx endIdx) := by
  refine ⟨?_, ?_, ?_, ?_⟩
  · intro idx hurl s hs
    obtain ⟨j, _, hne, rfl⟩ := (mem_prepare_urls entries indices s).mp hs
    intro hcontra
    have hji : j = idx := hcontra
    subst hji
    exact hne hurl
  · intro idx hmem hurl
    exact (mem_prepare_urls entries indices _).mpr ⟨idx, hmem, hurl, rfl⟩
  · intro i hurl s hs
    obtain ⟨j, _, _, hne, rfl⟩ := (mem_prepare_urls_for_batch entries startIdx endIdx s).mp hs
    intro hcontra
    have hji : j = i := hcontra
    subst hji
    exact hne hurl
  · intro i hlo hhi hurl
    exact (mem_prepare_urls_for_batch entries startIdx endIdx _).mpr
      ⟨i, hlo, hhi, hurl, rfl⟩

/-- Witness for `prepare_urls_skip_empty` on a concrete two-record store:
the record at index 0 (empty `detail_url`) is skipped, the record at
index 1 is submitted. -/
theorem prepare_urls_skip_empty_witness :
    (⟨"https://u.example", 1, ""⟩ : StartUrl).entryIndex ≠ 0 ∧
    (⟨"https://u.example", 1, ""⟩ : StartUrl) ∈
      prepare_urls [{ detail_url := "" }, { detail_url := "https://u.example" }] [0, 1] := by
  have h := prepare_urls_skip_empty
    [{ detail_url := "" }, { detail_url := "https://u.example" }] [0, 1] 0 2
  have hmem := h.2.1 1 (by decide) (by decide)
  exact ⟨h.1 0 (by decide) _ hmem, hmem⟩

/-- The initial `[c for c in base_cols if c in existing_cols or c in base_cols]`
filter keeps every base column (its second disjunct is trivially true). -/
theorem base_filter_eq (existingEnum : List String) :
    base_cols.filter (fun c => existingEnum.contains c || base_cols.contains c) =
      base_cols := by
  rw [List.filter_eq_self]
  intro a ha
  simp [List.contains, ha]

/-- The `for col in existing_cols: if col not in fieldnames: append` loop over
a duplicate-free enumeration appends exactly the enumerated elements not
already in the accumulator, in enumeration order. -/
theorem foldl_append_unique (existingEnum : List String) :
    ∀ A : List String, existingEnum.Nodup →
      existingEnum.foldl (fun fns col => if col ∈ fns then fns else fns ++ [col]) A =
        A ++ existingEnum.filter (fun c => !(A.contains c)) := by
  induction existingEnum with
  | nil => simp
  | cons col rest ih =>
    intro A hnd
    obtain ⟨hcol, hrest⟩ := List.nodup_cons.mp hnd
    rw [List.foldl_cons, List.filter_cons]
    by_cases hc : col ∈ A
    · rw [if_pos hc, ih A hrest]
      simp [List.contains, hc]
    · rw [if_neg hc]
      have hkeep : (!(A.contains col)) = true := by simp [List.contains, hc]
      rw [hkeep]
      rw [ih (A ++ [col]) hrest]
      have hfilter : rest.filter (fun c => !((A ++ [col]).contains c)) =
          rest.filter (fun c => !(A.contains c)) := by
        apply List.filter_congr
        intro x hx
        have hxcol : x ≠ col := fun h => hcol (h ▸ hx)
        simp [List.contains, hxcol]
      rw [hfilter, List.append_assoc, List.singleton_append]
      simp

/-- C7 (counterexample): the extra columns of the header are appended in
the iteration order of the Python set `existing_cols`, which is *not*
first-seen order and is not even a function of the store: two legal
iteration orders of the same key set produce different headers for the same
records, so the header is not "identical on every save". -/
theorem get_fieldnames_order_counterexample :
    isSetEnumOf ["company_name", "zz_extra", "aa_extra"]
      [[("company_name", "c"), ("zz_extra", "1"), ("aa_extra", "2")]] ∧
    isSetEnumOf ["company_name", "aa_extra", "zz_extra"]
      [[("company_name", "c"), ("zz_extra", "1"), ("aa_extra", "2")]] ∧
    get_fieldnames ["company_name", "zz_extra", "aa_extra"] ≠
      get_fieldnames ["company_name", "aa_extra", "zz_extra"] := by
  decide

/-- C7 (amended): every save writes the twelve base fields first, in their
fixed order; the additional discovered fields follow, each exactly once, in
the iteration order of the set of seen keys — an order that need not be
first-seen order and need not repeat across rewrites. -/
theorem get_fieldnames_base_first (entries : List (List (String × String)))
    (existingEnum : List String) (h : isSetEnumOf existingEnum entries) :
    get_fieldnames existingEnum =
      base_cols ++ existingEnum.filter (fun c => !(base_cols.contains c)) ∧
    (get_fieldnames existingEnum).take 12 = base_cols := by
  have heq : get_fieldnames existingEnum =
      base_cols ++ existingEnum.filter (fun c => !(base_cols.contains c)) := by
    unfold get_fieldnames
    rw [base_filter_eq, foldl_append_unique existingEnum base_cols h.1]
  refine ⟨heq, ?_⟩
  rw [heq]
  exact List.take_left' (by decide)

/-- Witness for `get_fieldnames_base_first` at a concrete store with two
extra columns. -/
theorem get_fieldnames_base_first_witness :
    get_fieldnames ["company_name", "zz_extra", "aa_extra"] =
      base_cols ++ ["zz_extra", "aa_extra"] := by
  have h := get_fieldnames_base_first
    [[("company_name", "c"), ("zz_extra", "1"), ("aa_extra", "2")]]
    ["company_name", "zz_extra", "aa_extra"] (by decide)
  exact h.1.trans (by decide)

/-- The dedup loop of `save_to_csv`, generalized over the running `seen`
set: position `i` of the input is kept iff its URL is empty, or it is
neither in `seen` nor among the URLs of the earlier positions. -/
theorem dedupGo_eq_spec (l : List Entry) : ∀ seen : List String,
    dedupGo seen l = (List.range l.length).filterMap (fun i =>
      if (l.getD i {}).detail_url = "" ∨ ((l.getD i {}).detail_url ∉ seen ∧
          (l.getD i {}).detail_url ∉ (l.take i).map Entry.detail_url)
      then some (l.getD i {}) else none) := by
  induction l with
  | nil => intro seen; simp [dedupGo]
  | cons a t ih =>
    intro seen
    rw [List.length_cons, List.range_succ_eq_map, List.filterMap_cons, List.filterMap_map]
    by_cases ha : a.detail_url = ""
    · -- empty URL: the record is kept, `seen` is unchanged
      simp only [dedupGo]
      rw [if_neg (fun h => h.1 ha), if_pos ha, ih seen]
      simp only [List.getD_cons_zero, List.take_zero, List.map_nil, List.not_mem_nil,
        not_false_eq_true, and_true, ha, true_or, if_true]
      congr 1
      apply List.filterMap_congr
      intro i _
      simp only [Function.comp_apply, List.getD_cons_succ, List.take_succ_cons,
        List.map_cons, List.mem_cons, ha]
      exact if_congr (by tauto) rfl rfl
    · by_cases hs : a.detail_url ∈ seen
      · -- non-empty URL already seen: the record is dropped, `seen` unchanged
        simp only [dedupGo]
        rw [if_neg (fun h => h.2 hs), if_neg ha, ih seen]
        simp only [List.getD_cons_zero, List.take_zero, List.map_nil, List.not_mem_nil,
          not_false_eq_true, and_true, ha, hs, not_true_eq_false, false_or, if_false]
        apply List.filterMap_congr
        intro i _
        simp only [Function.comp_apply, List.getD_cons_succ, List.take_succ_cons,
          List.map_cons, List.mem_cons]
        refine if_congr ?_ rfl rfl
        constructor
        · rintro (h | ⟨h1, h2⟩)
          · exact Or.inl h
          · refine Or.inr ⟨h1, ?_⟩
            rintro (heq | hm)
            · exact h1 (heq ▸ hs)
            · exact h2 hm
        · rintro (h | ⟨h1, h2⟩)
          · exact Or.inl h
          · exact Or.inr ⟨h1, fun hm => h2 (Or.inr hm)⟩
      · -- fresh non-empty URL: the record is kept and its URL joins `seen`
        simp only [dedupGo]
        rw [if_pos ⟨ha, hs⟩, ih (a.detail_url :: seen)]
        simp only [List.getD_cons_zero, List.take_zero, List.map_nil, List.not_mem_nil,
          not_false_eq_true, and_true, hs, not_false_eq_true, or_true, if_true]
        congr 1
        apply List.filterMap_congr
        intro i _
        simp only [Function.comp_apply, List.getD_cons_succ, List.take_succ_cons,
          List.map_cons, List.mem_cons]
        exact if_congr (by tauto) rfl rfl

/-- C10: the record list `save_to_csv` writes is exactly the spec-side
deduplication: the first occurrence of each distinct non-empty
`detail_url` is kept, every empty-URL record is kept, and the kept records
stay in input order. -/
theorem save_to_csv_dedup_correct (l : List Entry) :
    save_to_csv_unique l = dedup_spec l := by
  unfold save_to_csv_unique dedup_spec
  rw [dedupGo_eq_spec]
  apply List.filterMap_congr
  intro i _
  simp only [List.not_mem_nil, not_false_eq_true, true_and]

/-- Merging a chunk's results into the store never changes the number of
records (the Python loop updates `entries[i]` in place). -/
theorem length_update_entries_with_results (entries : List Entry)
    (results : List (String × ApifyItem)) (startIdx endIdx : Nat) :
    (update_entries_with_results entries results startIdx endIdx).1.length =
      entries.length := by
  simp [update_entries_with_results]

/-- C5 (counterexample): the wecp variant (enf_rescrape_wecp.py:147-190)
never checks the run's terminal status — a FAILED run whose actor call
returned normally has its (partial) dataset fetched, keyed by url into a
*non-empty* result mapping, and applied to the rows: a record's primary
website fields are overwritten from a FAILED chunk. -/
theorem wecp_applies_failed_run_results :
    wecp_collect_results (.finished "FAILED" (some "ds")
        (.ok [{ url := "https://d.example/p", website := "https://w.example" }])) =
      some [("https://d.example/p",
        { url := "https://d.example/p", website := "https://w.example" })] ∧
    ((wecp_batch_step [{ detail_url := "https://d.example/p" }]
        [(0, "https://d.example/p")]
        (.finished "FAILED" (some "ds")
          (.ok [{ url := "https://d.example/p", website := "https://w.example" }]))
      ).getD 0 {}).website_url_primary = "https://w.example" ∧
    ((wecp_batch_step [{ detail_url := "https://d.example/p" }]
        [(0, "https://d.example/p")]
        (.finished "FAILED" (some "ds")
          (.ok [{ url := "https://d.example/p", website := "https://w.example" }]))
      ).getD 0 {}).website_domain_primary = "w.example" := by
  decide

/-- C5 (amended): in the detail-scraper and rescrape-missing variants a
chunk whose actor call raises or whose polled terminal status is
FAILED / ABORTED / TIMED-OUT yields an empty result mapping, and the batch
loop — a total fold over *all* `ceil(N/B)` batch indices for *every*
assignment of outcomes — proceeds to the next chunk with the store intact.
The wecp variant treats only a raised exception as failure (the batch is
skipped and the loop continues); it never inspects the terminal status, so
its per-batch result is the same for every status, success or not. -/
theorem remote_failure_yields_empty_and_loop_continues :
    (∀ o : BatchOutcome, o.isFailure →
      run_apify_batch_detail o = [] ∧ run_apify_batch_rescrape o = []) ∧
    (∀ (entries : List Entry) (B : Nat) (oracle : Nat → BatchOutcome),
      (mainLoop_detail entries B oracle).1.length = entries.length) ∧
    (∀ (rows : List Entry) (batch : List (Nat × String)) (s : String)
        (dsid : Option String) (f : WecpFetch),
      wecp_batch_step rows batch .callRaised = rows ∧
      wecp_batch_step rows batch (.finished s dsid .raised) = rows ∧
      wecp_batch_step rows batch (.finished s none f) = rows ∧
      ∀ s' : String, wecp_batch_step rows batch (.finished s dsid f) =
        wecp_batch_step rows batch (.finished s' dsid f)) := by
  refine ⟨?_, ?_, ?_⟩
  · intro o hf
    cases o with
    | callRaised => exact ⟨rfl, rfl⟩
    | finished s ds f =>
      have hs : ¬s = "SUCCEEDED" := by
        rcases hf with h | h | h <;> simp [h]
      refine ⟨?_, ?_⟩ <;>
        simp [run_apify_batch_detail, run_apify_batch_rescrape, hs]
  · intro entries B oracle
    unfold mainLoop_detail
    have hgen : ∀ (bs : List Nat) (acc : List Entry × Nat),
        ((bs.foldl (fun acc bi =>
          let startIdx := bi * B
          let urls := prepare_urls_for_batch acc.1 startIdx (startIdx + B)
          if urls = [] then acc
          else
            let results := run_apify_batch_detail (oracle bi)
            let upd := update_entries_with_results acc.1 results startIdx (startIdx + B)
            (upd.1, acc.2 + upd.2)) acc).1.length = acc.1.length) := by
      intro bs
      induction bs with
      | nil => intro acc; rfl
      | cons b bs ih =>
        intro acc
        rw [List.foldl_cons]
        rw [ih]
        dsimp only
        split
        · rfl
        · exact length_update_entries_with_results ..
    exact hgen _ (entries, 0)
  · intro rows batch s dsid f
    refine ⟨rfl, ?_, ?_, ?_⟩
    · cases dsid <;> rfl
    · cases f <;> rfl
    · intro s'
      rfl

/-- Witness for `remote_failure_yields_empty_and_loop_continues`: a FAILED
terminal state yields no results in the detail variant even though the
dataset holds an item, a one-record store survives a run whose every
chunk's actor call raises, and a raised wecp actor call leaves the rows
unchanged. -/
theorem remote_failure_witness :
    run_apify_batch_detail
      (.finished "FAILED" (some "ds") (.ok [{ detail_url := "https://x.example" }])) = [] ∧
    (mainLoop_detail [{ detail_url := "https://x.example" }] 1
      (fun _ => .callRaised)).1.length = 1 ∧
    wecp_batch_step [{ detail_url := "https://x.example" }] [(0, "https://x.example")]
      .callRaised = [{ detail_url := "https://x.example" }] :=
  ⟨(remote_failure_yields_empty_and_loop_continues.1 _
      (by simp [BatchOutcome.isFailure])).1,
   remote_failure_yields_empty_and_loop_continues.2.1 _ 1 _,
   (remote_failure_yields_empty_and_loop_continues.2.2
      [{ detail_url := "https://x.example" }] [(0, "https://x.example")]
      "FAILED" (some "ds") (.ok [])).1⟩

/-- `ceil_div n B` is positive as soon as `n` is. -/
theorem ceil_div_pos {B n : Nat} (hB : 0 < B) (hn : 0 < n) : 0 < ceil_div n B :=
  (Nat.le_div_iff_mul_le hB).mpr (by omega)

/-- Concatenating the planned chunks restores the original list. -/
theorem planChunks_join_aux {α : Type} (B : Nat) (hB : 0 < B) :
    ∀ (k : Nat) (l : List α), k = ceil_div l.length B →
      ((List.range k).map (fun i => (l.drop (i * B)).take B)).flatten = l := by
  intro k
  induction k with
  | zero =>
    intro l hk
    have hlen : l.length = 0 := by
      by_contra h
      have := ceil_div_pos hB (Nat.pos_of_ne_zero h)
      omega
    simp [List.eq_nil_of_length_eq_zero hlen]
  | succ k ih =>
    intro l hk
    rw [List.range_succ_eq_map, List.map_cons, List.flatten_cons, List.map_map]
    have hpos : 0 < l.length := by
      by_contra h
      have hz : l.length = 0 := by omega
      rw [hz] at hk
      unfold ceil_div at hk
      rw [Nat.div_eq_of_lt (by omega)] at hk
      omega
    have htail : (List.range k).map ((fun i => (l.drop (i * B)).take B) ∘ Nat.succ) =
        (List.range k).map (fun i => ((l.drop B).drop (i * B)).take B) := by
      apply List.map_congr_left
      intro i _
      simp only [Function.comp_apply]
      rw [List.drop_drop]
      have hmul : Nat.succ i * B = B + i * B := by
        rw [Nat.succ_mul]
        omega
      rw [hmul]
    have hrec : k = ceil_div (l.drop B).length B := by
      rw [List.length_drop]
      rcases le_or_lt l.length B with hle | hlt
      · have h1 : ceil_div l.length B = 1 := by
          unfold ceil_div
          rw [show l.length + B - 1 = (l.length - 1) + B from by omega,
            Nat.add_div_right _ hB, Nat.div_eq_of_lt (by omega)]
        rw [show l.length - B = 0 from by omega]
        unfold ceil_div
        rw [Nat.div_eq_of_lt (by omega)]
        omega
      · unfold ceil_div at hk ⊢
        rw [show l.length - B + B - 1 = (l.length - B - 1) + B from by omega,
          Nat.add_div_right _ hB]
        rw [show l.length + B - 1 = (l.length - 1) + B from by omega,
          Nat.add_div_right _ hB] at hk
        rw [show l.length - B - 1 = l.length - 1 - B from by omega]
        rw [show l.length - 1 = (l.length - 1 - B) + B from by omega] at hk
        rw [Nat.add_div_right _ hB] at hk
        omega
    rw [htail, ih (l.drop B) hrec]
    simp

/-- C4: for every work list and chunk size `B > 0` the planner yields exactly
`ceil(N/B)` chunks; their concatenation is the input list (same elements,
same order, once each); every chunk but the last has length `B`; the last
has length `N mod B` when that is non-zero, else `B`. -/
theorem batch_planner_correct {α : Type} (l : List α) (B : Nat) (hB : 0 < B) :
    (planChunks B l).length = ceil_div l.length B ∧
    (planChunks B l).flatten = l ∧
    (∀ i, i + 1 < (planChunks B l).length →
      ((planChunks B l).getD i []).length = B) ∧
    (l ≠ [] → ((planChunks B l).getLastD []).length =
      if l.length % B = 0 then B else l.length % B) := by
  have hlen : (planChunks B l).length = ceil_div l.length B := by
    simp [planChunks]
  have hget : ∀ i, i < ceil_div l.length B →
      (planChunks B l).getD i [] = (l.drop (i * B)).take B := by
    intro i hi
    unfold planChunks
    rw [List.getD_eq_getElem?_getD, List.getElem?_map,
      List.getElem?_range (by simpa using hi)]
    rfl
  refine ⟨hlen, ?_, ?_, ?_⟩
  · exact planChunks_join_aux B hB _ l rfl
  · intro i hi
    rw [hlen] at hi
    rw [hget i (by omega), List.length_take, List.length_drop]
    unfold ceil_div at hi
    have hle : (i + 2) * B ≤ l.length + B - 1 :=
      (Nat.le_div_iff_mul_le hB).mp (by omega)
    have hmul : (i + 2) * B = i * B + 2 * B := by ring
    omega
  · intro hne
    have hpos : 0 < l.length := List.length_pos.mpr hne
    have hk : 0 < ceil_div l.length B := ceil_div_pos hB hpos
    have hlast : (planChunks B l).getLastD [] =
        (l.drop ((ceil_div l.length B - 1) * B)).take B := by
      rw [List.getLastD_eq_getLast?, List.getLast?_eq_getElem?, hlen]
      unfold planChunks
      rw [List.getElem?_map, List.getElem?_range (by omega)]
      rfl
    rw [hlast, List.length_take, List.length_drop]
    have hdm := Nat.div_add_mod l.length B
    have hmlt : l.length % B < B := Nat.mod_lt _ hB
    by_cases hr : l.length % B = 0
    · rw [if_pos hr]
      have hq : 0 < l.length / B := by
        rcases Nat.eq_zero_or_pos (l.length / B) with h | h
        · rw [h, Nat.mul_zero] at hdm
          omega
        · exact h
      have hkq : ceil_div l.length B = l.length / B := by
        unfold ceil_div
        obtain ⟨q, hqe⟩ : ∃ q, l.length / B = q + 1 := ⟨l.length / B - 1, by omega⟩
        rw [hqe] at hdm
        rw [hqe]
        have hBq : B * (q + 1) = q * B + B := by ring
        rw [show l.length + B - 1 = B * (q + 1) + (B - 1) from by omega,
          Nat.mul_add_div hB (q + 1) (B - 1),
          Nat.div_eq_of_lt (show B - 1 < B from by omega)]
      rw [hkq]
      obtain ⟨q, hqe⟩ : ∃ q, l.length / B = q + 1 := ⟨l.length / B - 1, by omega⟩
      rw [hqe] at hdm
      rw [hqe]
      have hBq : B * (q + 1) = q * B + B := by ring
      have hsub : (q + 1 - 1) * B = q * B := by simp
      rw [hsub]
      omega
    · rw [if_neg hr]
      have hkq : ceil_div l.length B = l.length / B + 1 := by
        unfold ceil_div
        have hBq : B * (l.length / B + 1) = B * (l.length / B) + B := by ring
        rw [show l.length + B - 1 = B * (l.length / B + 1) + (l.length % B - 1) from by omega,
          Nat.mul_add_div hB (l.length / B + 1) (l.length % B - 1),
          Nat.div_eq_of_lt (show l.length % B - 1 < B from by omega)]
      rw [hkq]
      have hsub : (l.length / B + 1 - 1) * B = l.length / B * B := by simp
      have hBq : B * (l.length / B) = l.length / B * B := by ring
      rw [hsub]
      omega

/-- Witness for `batch_planner_correct` on a five-element list with chunk
size two: three chunks, sizes 2, 2, 1, concatenation restores the list. -/
theorem batch_planner_correct_witness :
    (planChunks 2 [10, 20, 30, 40, 50]).length = 3 ∧
    (planChunks 2 [10, 20, 30, 40, 50]).flatten = [10, 20, 30, 40, 50] ∧
    ((planChunks 2 [10, 20, 30, 40, 50]).getD 0 []).length = 2 ∧
    ((planChunks 2 [10, 20, 30, 40, 50]).getLastD []).length = 1 := by
  have h := batch_planner_correct [10, 20, 30, 40, 50] 2 (by decide)
  refine ⟨h.1.trans (by decide), h.2.1, h.2.2.1 0 (by decide), ?_⟩
  have hl := h.2.2.2 (by decide)
  simpa using hl

end Minddrift
